import Mathlib

/-!
Shallow embedding of the distributed-quantum-computing simulator
(`src/network/quantum_network.py`, `src/network/protocols.py`,
`src/scheduler/quantum_scheduler.py`) in Lean 4.

Modelling conventions:
* All simulated durations and the logical clock are rationals (`ℚ`); the
  Python floats in the source are decimal literals, which `ℚ` represents
  exactly.
* Python `raise` is modelled with `Except String`: every `raise` in the
  source happens before any mutation of the raising function, so an
  `.error` result leaves the caller holding the unmodified state.
* Wall-clock artifacts (`time.sleep`, `time.time()` timestamps) are not
  part of the logical state and are omitted, as the spec instructs.
* A Python `set` of small naturals is modelled as a `Finset ℕ`; CPython
  iterates such a set in ascending value order, so the source's
  `list(set)` is modelled as `Finset.sort (· ≤ ·)`.
* The numpy random draws of `protocols.py` (two `randint(2)` bits and one
  `normal(0, 0.005)` sample) are explicit arguments: the injectable
  random source of the spec.
-/

namespace DQC

/-- One entry of `QuantumNetworkNode.qubits`: the per-slot dict with keys
`state`, `entangled_with`, `last_operation`.  `state` and `last_operation`
are written only with `None` anywhere in the repository, so they carry an
always-`none` `Option` here; `entangled_with` holds the peer
(node id, slot index) when entangled. -/
structure QubitRecord where
  state : Option String
  entangledWith : Option (ℕ × ℕ)
  lastOperation : Option String
deriving Repr, DecidableEq

/-- The initial / reset slot dict
`{'state': None, 'entangled_with': (None, None), 'last_operation': None}`. -/
def QubitRecord.initial : QubitRecord :=
  { state := none, entangledWith := none, lastOperation := none }

instance : Inhabited QubitRecord := ⟨QubitRecord.initial⟩

/-- One entry of `operation_history` appended by `execute_gate`.  The
source also records a wall-clock `timestamp`, which is outside the
logical state and omitted here. -/
structure OperationRecord where
  gate : String
  qubits : List ℕ
  duration : ℚ
  nodeId : ℕ
deriving Repr, DecidableEq

/-- `QuantumNetworkNode`: a single QPU.  `completed`/logging fields of the
Python class that are never read are omitted. -/
structure QuantumNetworkNode where
  nodeId : ℕ
  numQubits : ℕ
  qubits : List QubitRecord
  availableQubits : Finset ℕ
  operationHistory : List OperationRecord
  totalOperations : ℕ
deriving DecidableEq

/-- `QuantumNetworkNode.__init__(node_id, num_qubits)`. -/
def QuantumNetworkNode.init (nodeId numQubits : ℕ) : QuantumNetworkNode :=
  { nodeId := nodeId
    numQubits := numQubits
    qubits := List.replicate numQubits QubitRecord.initial
    availableQubits := Finset.range numQubits
    operationHistory := []
    totalOperations := 0 }

instance : Inhabited QuantumNetworkNode := ⟨QuantumNetworkNode.init 0 0⟩

/-- `QuantumNetworkNode.execute_gate(gate_type, qubits, duration)`:
rejects any out-of-range slot index with `ValueError`, otherwise appends
one operation record, increments `total_operations` and returns the
caller-supplied duration.  (The source's `time.sleep(duration)` is a
wall-clock artifact with no logical effect.) -/
def QuantumNetworkNode.execute_gate (node : QuantumNetworkNode) (gateType : String)
    (qubits : List ℕ) (duration : ℚ) : Except String (QuantumNetworkNode × ℚ) :=
  if qubits.all (fun q => q < node.numQubits) then
    Except.ok
      ({ node with
          operationHistory := node.operationHistory ++
            [{ gate := gateType, qubits := qubits, duration := duration,
               nodeId := node.nodeId }]
          totalOperations := node.totalOperations + 1 }, duration)
  else
    Except.error "Invalid qubit indices"

/-- `QuantumNetworkNode.get_utilization()`:
`len(operation_history) / max(total_operations, 1)`, and `0.0` when the
history is empty. -/
def QuantumNetworkNode.get_utilization (node : QuantumNetworkNode) : ℚ :=
  if node.operationHistory = [] then 0
  else (node.operationHistory.length : ℚ) / (max node.totalOperations 1 : ℕ)

/-- `QuantumNetworkNode.reset_qubit(qubit_idx)`: silently a no-op when the
index is out of range; otherwise restores the slot dict to its initial
value and adds the index back to `available_qubits`. -/
def QuantumNetworkNode.reset_qubit (node : QuantumNetworkNode) (qubitIdx : ℕ) :
    QuantumNetworkNode :=
  if qubitIdx < node.numQubits then
    { node with
        qubits := node.qubits.set qubitIdx QubitRecord.initial
        availableQubits := insert qubitIdx node.availableQubits }
  else node

/-- `DistributedQuantumNetwork`: node list (index = node id), latency, the
entanglement registry and the shared logical clock.
(`communication_history` is never written or read in the repository and is
omitted.) -/
structure DistributedQuantumNetwork where
  nodes : List QuantumNetworkNode
  communicationLatency : ℚ
  entanglementPairs : List ((ℕ × ℕ) × (ℕ × ℕ))
  globalTime : ℚ
deriving DecidableEq

/-- `DistributedQuantumNetwork.__init__(num_nodes, qubits_per_node,
communication_latency)`. -/
def DistributedQuantumNetwork.init (numNodes qubitsPerNode : ℕ)
    (communicationLatency : ℚ) : DistributedQuantumNetwork :=
  { nodes := (List.range numNodes).map (fun i => QuantumNetworkNode.init i qubitsPerNode)
    communicationLatency := communicationLatency
    entanglementPairs := []
    globalTime := 0 }

/-- Helper for the in-place update
`nodes[n].qubits[q]['entangled_with'] = peer`. -/
def setEntangledWith (node : QuantumNetworkNode) (q : ℕ) (peer : ℕ × ℕ) :
    QuantumNetworkNode :=
  { node with
      qubits := node.qubits.set q
        { (node.qubits.getD q QubitRecord.initial) with entangledWith := some peer } }

/-- `DistributedQuantumNetwork.create_entanglement(node1, qubit1, node2, qubit2)`:
same-node check, then node-range check, then slot-range check (each check
precedes every mutation); on success advances the clock by
`communication_latency * 1.5`, appends one registry entry and sets both
back-references, returning the entanglement time. -/
def DistributedQuantumNetwork.create_entanglement
    (net : DistributedQuantumNetwork) (node1 qubit1 node2 qubit2 : ℕ) :
    Except String (DistributedQuantumNetwork × ℚ) :=
  if node1 = node2 then
    Except.error "Entanglement must be between different nodes"
  else if ¬(node1 < net.nodes.length ∧ node2 < net.nodes.length) then
    Except.error "Invalid node indices"
  else if ¬(qubit1 < (net.nodes.getD node1 default).numQubits ∧
            qubit2 < (net.nodes.getD node2 default).numQubits) then
    Except.error "Invalid qubit indices"
  else
    let entanglementTime := net.communicationLatency * (3 / 2 : ℚ)
    let nodes1 := net.nodes.set node1
      (setEntangledWith (net.nodes.getD node1 default) qubit1 (node2, qubit2))
    let nodes2 := nodes1.set node2
      (setEntangledWith (nodes1.getD node2 default) qubit2 (node1, qubit1))
    Except.ok
      ({ net with
          globalTime := net.globalTime + entanglementTime
          entanglementPairs := net.entanglementPairs ++ [((node1, qubit1), (node2, qubit2))]
          nodes := nodes2 }, entanglementTime)

/-- `DistributedQuantumNetwork.get_network_stats()` (pure read). -/
structure NetworkStats where
  totalNodes : ℕ
  totalQubits : ℕ
  activeEntanglements : ℕ
  totalOperations : ℕ
  nodeUtilizations : List ℚ
  globalTime : ℚ
deriving Repr, DecidableEq

/-- `get_network_stats()`. -/
def DistributedQuantumNetwork.get_network_stats (net : DistributedQuantumNetwork) :
    NetworkStats :=
  { totalNodes := net.nodes.length
    totalQubits := (net.nodes.map QuantumNetworkNode.numQubits).sum
    activeEntanglements := net.entanglementPairs.length
    totalOperations := (net.nodes.map QuantumNetworkNode.totalOperations).sum
    nodeUtilizations := net.nodes.map QuantumNetworkNode.get_utilization
    globalTime := net.globalTime }

/-- The `protocol_metrics` dict of `QuantumProtocols.__init__`. -/
structure ProtocolMetrics where
  teleportationTimes : List ℚ
  fidelities : List ℚ
  entanglementConsumption : List ℕ
  protocolErrors : List String
deriving DecidableEq

/-- The empty metrics accumulator created by `QuantumProtocols.__init__`. -/
def ProtocolMetrics.init : ProtocolMetrics :=
  { teleportationTimes := [], fidelities := [], entanglementConsumption := [],
    protocolErrors := [] }

/-- `QuantumProtocols`: the protocol engine wrapping a network. -/
structure QuantumProtocols where
  network : DistributedQuantumNetwork
  protocolMetrics : ProtocolMetrics
deriving DecidableEq

/-- `QuantumProtocols.__init__(network)`. -/
def QuantumProtocols.init (network : DistributedQuantumNetwork) : QuantumProtocols :=
  { network := network, protocolMetrics := ProtocolMetrics.init }

/-- The random draws consumed by one `teleport_qubit` call:
`measurement_results = (np.random.randint(2), np.random.randint(2))` and
the fidelity noise `np.random.normal(0, 0.005)`.  With a seeded numpy
generator these are deterministic; they enter the model as explicit
input. -/
structure TeleportDraws where
  measurement0 : ℕ
  measurement1 : ℕ
  noise : ℚ
deriving DecidableEq

/-- The in-place call `self.network.nodes[node_id].execute_gate(...)`,
lifted to the network: on success the node list is updated at `nodeId`. -/
def networkNodeExecuteGate (net : DistributedQuantumNetwork) (nodeId : ℕ)
    (gateType : String) (qubits : List ℕ) (duration : ℚ) :
    Except String (DistributedQuantumNetwork × ℚ) :=
  match (net.nodes.getD nodeId default).execute_gate gateType qubits duration with
  | Except.error e => Except.error e
  | Except.ok (node, d) => Except.ok ({ net with nodes := net.nodes.set nodeId node }, d)

/-- `QuantumProtocols.teleport_qubit(source_node, source_qubit, target_node,
target_qubit)`.  Stages: entangle (clock += latency*1.5), Bell measurement
(clock += 0.05), classical communication (clock += latency), conditional
X/Z correction gates on the target node (gate duration 0.01 each, logged on
the node but not added to the clock), correction stage (clock += 0.02);
fidelity = clamp(0.96 + noise) to [0.94, 0.98]; metrics recorded.  On any
stage failure the error message is appended to `protocol_errors` and the
exception re-raised; mutations already made by completed stages persist,
so the error carries the partially-updated engine state. -/
def QuantumProtocols.teleport_qubit (p : QuantumProtocols)
    (sourceNode sourceQubit targetNode targetQubit : ℕ) (draws : TeleportDraws) :
    Except (QuantumProtocols × String) (QuantumProtocols × ℚ × ℚ) :=
  let startTime := p.network.globalTime
  match p.network.create_entanglement sourceNode sourceQubit targetNode targetQubit with
  | Except.error e =>
      Except.error
        ({ p with protocolMetrics :=
            { p.protocolMetrics with
                protocolErrors := p.protocolMetrics.protocolErrors ++
                  ["Teleportation failed: " ++ e] } }, e)
  | Except.ok (net1, _entTime) =>
      let measureTime : ℚ := 1/20
      let net2 := { net1 with globalTime := net1.globalTime + measureTime }
      let commTime := net2.communicationLatency
      let net3 := { net2 with globalTime := net2.globalTime + commTime }
      let afterX :=
        if draws.measurement1 = 1 then
          networkNodeExecuteGate net3 targetNode "X" [targetQubit] (1/100)
        else Except.ok (net3, 0)
      match afterX with
      | Except.error e =>
          Except.error
            ({ p with
                network := net3
                protocolMetrics :=
                  { p.protocolMetrics with
                      protocolErrors := p.protocolMetrics.protocolErrors ++
                        ["Teleportation failed: " ++ e] } }, e)
      | Except.ok (net4, _) =>
          let afterZ :=
            if draws.measurement0 = 1 then
              networkNodeExecuteGate net4 targetNode "Z" [targetQubit] (1/100)
            else Except.ok (net4, 0)
          match afterZ with
          | Except.error e =>
              Except.error
                ({ p with
                    network := net4
                    protocolMetrics :=
                      { p.protocolMetrics with
                          protocolErrors := p.protocolMetrics.protocolErrors ++
                            ["Teleportation failed: " ++ e] } }, e)
          | Except.ok (net5, _) =>
              let correctionTime : ℚ := 1/50
              let net6 := { net5 with globalTime := net5.globalTime + correctionTime }
              let totalTime := net6.globalTime - startTime
              let baseFidelity : ℚ := 96/100
              let fidelity := max (94/100) (min (98/100) (baseFidelity + draws.noise))
              Except.ok
                ({ network := net6
                   protocolMetrics :=
                     { p.protocolMetrics with
                         teleportationTimes :=
                           p.protocolMetrics.teleportationTimes ++ [totalTime]
                         fidelities := p.protocolMetrics.fidelities ++ [fidelity]
                         entanglementConsumption :=
                           p.protocolMetrics.entanglementConsumption ++
                             [net6.entanglementPairs.length] } },
                 totalTime, fidelity)

/-- Mean of a list of rationals (`np.mean`). -/
def meanQ (xs : List ℚ) : ℚ := xs.sum / xs.length

/-- Population variance of a list of rationals.  `np.std` is the square
root of this; the square is kept so the summary stays in `ℚ` (the square
root is a strictly monotone bijection on nonnegative reals, so no
information is lost). -/
def varianceQ (xs : List ℚ) : ℚ :=
  ((xs.map (fun x => (x - meanQ xs) ^ 2)).sum) / xs.length

/-- Minimum of a list (`np.min`), with `0` on the empty list (unreached:
the source only evaluates it on a nonempty list). -/
def listMinQ (xs : List ℚ) : ℚ :=
  match xs with
  | [] => 0
  | x :: rest => rest.foldl min x

/-- Maximum of a list (`np.max` / Python `max`), with `0` on the empty
list (unreached in the source). -/
def listMaxQ (xs : List ℚ) : ℚ :=
  match xs with
  | [] => 0
  | x :: rest => rest.foldl max x

/-- Maximum of a list of naturals (the `max(...)` over
`entanglement_consumption`). -/
def listMaxNat (xs : List ℕ) : ℕ :=
  match xs with
  | [] => 0
  | x :: rest => rest.foldl max x

/-- The summary dict returned by a nonempty `get_protocol_metrics()`.
`stdTeleportationTimeSq` holds the square of the source's
`std_teleportation_time`. -/
structure MetricsSummary where
  avgTeleportationTime : ℚ
  stdTeleportationTimeSq : ℚ
  avgFidelity : ℚ
  minFidelity : ℚ
  maxFidelity : ℚ
  totalOperations : ℕ
  totalEntanglements : ℕ
  errorCount : ℕ
deriving DecidableEq

/-- `QuantumProtocols.get_protocol_metrics()`: `none` models the empty
dict returned when no teleportation times have been recorded. -/
def QuantumProtocols.get_protocol_metrics (p : QuantumProtocols) :
    Option MetricsSummary :=
  if p.protocolMetrics.teleportationTimes = [] then none
  else
    some
      { avgTeleportationTime := meanQ p.protocolMetrics.teleportationTimes
        stdTeleportationTimeSq := varianceQ p.protocolMetrics.teleportationTimes
        avgFidelity := meanQ p.protocolMetrics.fidelities
        minFidelity := listMinQ p.protocolMetrics.fidelities
        maxFidelity := listMaxQ p.protocolMetrics.fidelities
        totalOperations := p.protocolMetrics.teleportationTimes.length
        totalEntanglements :=
          if p.protocolMetrics.entanglementConsumption = [] then 0
          else listMaxNat p.protocolMetrics.entanglementConsumption
        errorCount := p.protocolMetrics.protocolErrors.length }

/-- The part of a subcircuit dict the scheduler reads: `required_qubits`
and `partition_id` (the circuit contents are opaque to the core). -/
structure Subcircuit where
  requiredQubits : ℕ
  partitionId : ℕ
deriving DecidableEq

/-- One heap entry `(priority, timestamp, i, subcircuit)` pushed by
`schedule_circuit`.  The wall-clock `time.time()` timestamp is modelled as
a caller-supplied rational. -/
structure QueueEntry where
  priority : ℤ
  timestamp : ℚ
  circuitId : ℕ
  subcircuit : Subcircuit
deriving DecidableEq

/-- Lexicographic comparison of heap keys `(priority, timestamp, i)`, the
order in which `heapq.heappop` yields entries. -/
def QueueEntry.keyLe (a b : QueueEntry) : Bool :=
  decide (a.priority < b.priority ∨
    (a.priority = b.priority ∧ (a.timestamp < b.timestamp ∨
      (a.timestamp = b.timestamp ∧ a.circuitId ≤ b.circuitId))))

/-- The sequence of entries a `heapq` heap holding `l` yields under
repeated `heappop`: ascending key order. -/
def heapOrder (l : List QueueEntry) : List QueueEntry :=
  l.mergeSort QueueEntry.keyLe

/-- One completion entry returned by `_execute_on_node`. -/
structure ExecResult where
  nodeId : ℕ
  subcircuitId : ℕ
  executionTime : ℚ
  qubitsUsed : List ℕ
deriving DecidableEq

/-- The per-drain analysis dict returned by `execute_schedule`. -/
structure ScheduleAnalysis where
  totalExecutionTime : ℚ
  circuitsExecuted : ℕ
  averageCircuitTime : ℚ
  nodeUtilization : List ℚ
  scheduleEfficiency : ℚ
deriving DecidableEq

/-- `QuantumScheduler`: queue of pending entries plus the shared network.
(`completed_circuits` is initialized but never read or written in the
source and is omitted.) -/
structure QuantumScheduler where
  network : DistributedQuantumNetwork
  scheduleQueue : List QueueEntry
  schedulingHistory : List ScheduleAnalysis

/-- `QuantumScheduler.__init__(network)`. -/
def QuantumScheduler.init (network : DistributedQuantumNetwork) : QuantumScheduler :=
  { network := network, scheduleQueue := [], schedulingHistory := [] }

/-- `QuantumScheduler.schedule_circuit(subcircuits, priority)`: pushes one
entry per subcircuit, all sharing the call's timestamp and priority, with
the enumeration index as tie-break. -/
def QuantumScheduler.schedule_circuit (s : QuantumScheduler)
    (subcircuits : List Subcircuit) (priority : ℤ) (timestamp : ℚ) :
    QuantumScheduler :=
  { s with
      scheduleQueue := s.scheduleQueue ++
        subcircuits.enum.map (fun p =>
          { priority := priority, timestamp := timestamp, circuitId := p.1,
            subcircuit := p.2 }) }

/-- `QuantumScheduler._find_available_node(required_qubits)`: id of the
first node whose available-slot set has at least `required_qubits`
elements. -/
def QuantumScheduler.findAvailableNode (net : DistributedQuantumNetwork)
    (requiredQubits : ℕ) : Option ℕ :=
  (net.nodes.find? (fun n => requiredQubits ≤ n.availableQubits.card)).map
    QuantumNetworkNode.nodeId

/-- The gate loop of `_execute_on_node`:
`for i in range(required_qubits): execution_time += node.execute_gate('H', [i], 0.01)`,
returning the updated node and the accumulated gate time. -/
def runCircuitGates (node : QuantumNetworkNode) :
    List ℕ → Except String (QuantumNetworkNode × ℚ)
  | [] => Except.ok (node, 0)
  | i :: rest =>
    match node.execute_gate "H" [i] (1/100) with
    | Except.error e => Except.error e
    | Except.ok (node1, d) =>
      match runCircuitGates node1 rest with
      | Except.error e => Except.error e
      | Except.ok (node2, t) => Except.ok (node2, d + t)

/-- `QuantumScheduler._execute_on_node(node_id, subcircuit)`: takes the
first `required_qubits` slots of the available set in its native
(ascending) order, removes them, runs one `H` gate of duration 0.01 per
index `0..required_qubits-1` on top of a base cost 0.1, re-adds the taken
slots and returns the completion entry. -/
def QuantumScheduler.executeOnNode (net : DistributedQuantumNetwork)
    (nodeId : ℕ) (sc : Subcircuit) :
    Except String (DistributedQuantumNetwork × ExecResult) :=
  let node := net.nodes.getD nodeId default
  let usedQubits := (node.availableQubits.sort (· ≤ ·)).take sc.requiredQubits
  let node1 := { node with
    availableQubits := usedQubits.foldl (fun s q => s.erase q) node.availableQubits }
  match runCircuitGates node1 (List.range sc.requiredQubits) with
  | Except.error e => Except.error e
  | Except.ok (node2, gateTime) =>
    let node3 := { node2 with
      availableQubits := usedQubits.foldl (fun s q => insert q s) node2.availableQubits }
    Except.ok
      ({ net with nodes := net.nodes.set nodeId node3 },
       { nodeId := nodeId, subcircuitId := sc.partitionId,
         executionTime := 1/10 + gateTime, qubitsUsed := usedQubits })

/-- The `while temp_queue:` drain of `execute_schedule`, processing
entries in heap pop order: placeable entries run on the found node
(appending a completion entry), unplaceable ones are re-pushed onto the
live queue with priority incremented. -/
def drainLoop (net : DistributedQuantumNetwork) :
    List QueueEntry →
    Except String (DistributedQuantumNetwork × List QueueEntry × List ExecResult)
  | [] => Except.ok (net, [], [])
  | e :: rest =>
    match QuantumScheduler.findAvailableNode net e.subcircuit.requiredQubits with
    | some nid =>
      match QuantumScheduler.executeOnNode net nid e.subcircuit with
      | Except.error err => Except.error err
      | Except.ok (net1, res) =>
        match drainLoop net1 rest with
        | Except.error err => Except.error err
        | Except.ok (net2, rq, rs) => Except.ok (net2, rq, res :: rs)
    | none =>
      match drainLoop net rest with
      | Except.error err => Except.error err
      | Except.ok (net1, rq, rs) =>
        Except.ok (net1, { e with priority := e.priority + 1 } :: rq, rs)

/-- `QuantumScheduler.execute_schedule()`: snapshots and clears the queue,
drains the snapshot, and returns the scheduler with the re-queued entries
plus the analysis dict. -/
def QuantumScheduler.execute_schedule (s : QuantumScheduler) :
    Except String (QuantumScheduler × ScheduleAnalysis) :=
  let startTime := s.network.globalTime
  match drainLoop s.network (heapOrder s.scheduleQueue) with
  | Except.error e => Except.error e
  | Except.ok (net, requeued, results) =>
    let totalTime := net.globalTime - startTime
    let analysis : ScheduleAnalysis :=
      { totalExecutionTime := totalTime
        circuitsExecuted := results.length
        averageCircuitTime := totalTime / (max 1 results.length : ℕ)
        nodeUtilization := net.nodes.map QuantumNetworkNode.get_utilization
        scheduleEfficiency :=
          (results.length : ℚ) / (max 1 (requeued.length + results.length) : ℕ) }
    Except.ok
      ({ s with
          network := net
          scheduleQueue := requeued
          schedulingHistory := s.schedulingHistory ++ [analysis] }, analysis)

/-! ### Helper lemmas -/

lemma getD_set_self {α : Type} (l : List α) (i : ℕ) (v d : α) (h : i < l.length) :
    (l.set i v).getD i d = v := by
  simp [List.getD, List.getElem?_set_self, h]

lemma getD_set_ne {α : Type} (l : List α) (i j : ℕ) (v d : α) (h : i ≠ j) :
    (l.set i v).getD j d = l.getD j d := by
  simp [List.getD, List.getElem?_set_ne h]

lemma getD_mem {α : Type} (l : List α) (i : ℕ) (d : α) (h : i < l.length) :
    l.getD i d ∈ l := by
  rw [List.getD_eq_getElem l d h]
  exact List.getElem_mem h

lemma setEntangledWith_numQubits (node : QuantumNetworkNode) (q : ℕ) (peer : ℕ × ℕ) :
    (setEntangledWith node q peer).numQubits = node.numQubits := rfl

lemma setEntangledWith_availableQubits (node : QuantumNetworkNode) (q : ℕ) (peer : ℕ × ℕ) :
    (setEntangledWith node q peer).availableQubits = node.availableQubits := rfl

/-! ### C4: `execute_gate` validation and logging -/

/-- Success shape of `execute_gate`: all indices in range. -/
lemma execute_gate_ok (node : QuantumNetworkNode) (gateType : String)
    (qubits : List ℕ) (duration : ℚ) (h : ∀ q ∈ qubits, q < node.numQubits) :
    node.execute_gate gateType qubits duration =
      Except.ok
        ({ node with
            operationHistory := node.operationHistory ++
              [{ gate := gateType, qubits := qubits, duration := duration,
                 nodeId := node.nodeId }]
            totalOperations := node.totalOperations + 1 }, duration) := by
  have hall : qubits.all (fun q => decide (q < node.numQubits)) = true := by
    simp only [List.all_eq_true, decide_eq_true_eq]
    exact h
  simp [QuantumNetworkNode.execute_gate, hall]

/-- C4: for every node and every slot-index list containing an index outside
`[0, N)`, `execute_gate` fails with the invalid-slot error and produces no
updated node (the caller keeps the node whose operation log is unchanged,
so the log length before and after the rejected call is equal, and nothing
executes on the out-of-range slot); for every in-range index list it
appends exactly one operation record, increments the operation counter by
one, and returns the caller-supplied duration unchanged. -/
theorem C4_execute_gate_validation (node : QuantumNetworkNode) (gateType : String)
    (qubits : List ℕ) (duration : ℚ) :
    ((∃ q ∈ qubits, ¬ q < node.numQubits) →
      node.execute_gate gateType qubits duration =
        Except.error "Invalid qubit indices") ∧
    ((∀ q ∈ qubits, q < node.numQubits) →
      node.execute_gate gateType qubits duration =
        Except.ok
          ({ node with
              operationHistory := node.operationHistory ++
                [{ gate := gateType, qubits := qubits, duration := duration,
                   nodeId := node.nodeId }]
              totalOperations := node.totalOperations + 1 }, duration)) := by
  constructor
  · rintro ⟨q, hq, hlt⟩
    have hall : ¬ qubits.all (fun q => decide (q < node.numQubits)) = true := by
      simp only [List.all_eq_true, decide_eq_true_eq]
      exact fun h => hlt (h q hq)
    simp [QuantumNetworkNode.execute_gate, hall]
  · exact execute_gate_ok node gateType qubits duration

/-- Witness for C4 on a concrete node: index 2 is rejected on a 2-qubit
node with the log untouched, and `[0, 1]` is logged as one record. -/
theorem C4_execute_gate_validation_witness :
    (QuantumNetworkNode.init 0 2).execute_gate "H" [2] (1/100) =
        Except.error "Invalid qubit indices" ∧
    (QuantumNetworkNode.init 0 2).execute_gate "H" [0, 1] (1/100) =
      Except.ok
        ({ nodeId := 0, numQubits := 2,
           qubits := List.replicate 2 QubitRecord.initial,
           availableQubits := Finset.range 2,
           operationHistory :=
             [{ gate := "H", qubits := [0, 1], duration := 1/100, nodeId := 0 }],
           totalOperations := 1 }, 1/100) := by
  refine ⟨(C4_execute_gate_validation (QuantumNetworkNode.init 0 2) "H" [2] (1/100)).1
      ⟨2, by decide, by decide⟩,
    ((C4_execute_gate_validation (QuantumNetworkNode.init 0 2) "H" [0, 1] (1/100)).2
      (by decide)).trans rfl⟩

/-! ### C3: `create_entanglement` contract -/

/-- C3: `create_entanglement` fails with the same-node error when the two
node ids coincide and with the invalid-node / invalid-slot errors when an
id or index is out of range; every failure happens before any mutation (an
error result carries no updated network, so nothing is registered and the
clock does not move); every success returns `latency * 1.5`, advances the
clock by exactly that, appends exactly one registry entry (no
deduplication — repeated or swapped calls each grow the registry by one)
and sets both slots' entangled-with back-references to each other.  The
well-formedness hypothesis records that every node's slot-dict list has
its declared length, as `__init__` guarantees. -/
theorem C3_create_entanglement_contract (net : DistributedQuantumNetwork)
    (a qa b qb : ℕ)
    (hwf : ∀ n ∈ net.nodes, n.qubits.length = n.numQubits) :
    (a = b → net.create_entanglement a qa b qb =
        Except.error "Entanglement must be between different nodes") ∧
    (a ≠ b → ¬(a < net.nodes.length ∧ b < net.nodes.length) →
        net.create_entanglement a qa b qb =
          Except.error "Invalid node indices") ∧
    (a ≠ b → (a < net.nodes.length ∧ b < net.nodes.length) →
        ¬(qa < (net.nodes.getD a default).numQubits ∧
          qb < (net.nodes.getD b default).numQubits) →
        net.create_entanglement a qa b qb =
          Except.error "Invalid qubit indices") ∧
    (∀ net' t, net.create_entanglement a qa b qb = Except.ok (net', t) →
        t = net.communicationLatency * (3/2) ∧
        net'.globalTime = net.globalTime + net.communicationLatency * (3/2) ∧
        net'.entanglementPairs =
          net.entanglementPairs ++ [((a, qa), (b, qb))] ∧
        ((net'.nodes.getD a default).qubits.getD qa default).entangledWith =
          some (b, qb) ∧
        ((net'.nodes.getD b default).qubits.getD qb default).entangledWith =
          some (a, qa)) := by
  refine ⟨?_, ?_, ?_, ?_⟩
  · intro hab
    simp [DistributedQuantumNetwork.create_entanglement, hab]
  · intro hab hrange
    simp [DistributedQuantumNetwork.create_entanglement, hab, hrange]
  · intro hab hrange hslots
    simp only [DistributedQuantumNetwork.create_entanglement, if_neg hab,
      if_neg (not_not_intro hrange), if_pos hslots]
  · intro net' t hok
    by_cases hab : a = b
    · simp [DistributedQuantumNetwork.create_entanglement, hab] at hok
    by_cases hrange : a < net.nodes.length ∧ b < net.nodes.length
    swap
    · simp [DistributedQuantumNetwork.create_entanglement, hab, hrange] at hok
    by_cases hslots : qa < (net.nodes.getD a default).numQubits ∧
        qb < (net.nodes.getD b default).numQubits
    swap
    · simp only [DistributedQuantumNetwork.create_entanglement, if_neg hab,
        if_neg (not_not_intro hrange), if_pos hslots] at hok
      exact Except.noConfusion hok
    simp only [DistributedQuantumNetwork.create_entanglement, if_neg hab,
      if_neg (not_not_intro hrange), if_neg (not_not_intro hslots)] at hok
    obtain ⟨hnet, ht⟩ := Prod.mk.injEq .. ▸ (Except.ok.injEq .. ▸ hok)
    subst hnet
    refine ⟨ht.symm, rfl, rfl, ?_, ?_⟩
    · have hA : ((net.nodes.set a
          (setEntangledWith (net.nodes.getD a default) qa (b, qb))).set b
          (setEntangledWith (((net.nodes.set a
            (setEntangledWith (net.nodes.getD a default) qa (b, qb))).getD b
              default)) qb (a, qa))).getD a default =
          setEntangledWith (net.nodes.getD a default) qa (b, qb) := by
        rw [getD_set_ne _ _ _ _ _ (Ne.symm hab),
          getD_set_self _ _ _ _ hrange.1]
      rw [hA]
      have hlen : (net.nodes.getD a default).qubits.length =
          (net.nodes.getD a default).numQubits :=
        hwf _ (getD_mem _ _ _ hrange.1)
      rw [setEntangledWith]
      simp only
      rw [getD_set_self _ _ _ _ (by rw [hlen]; exact hslots.1)]
    · have hB : ((net.nodes.set a
          (setEntangledWith (net.nodes.getD a default) qa (b, qb))).set b
          (setEntangledWith (((net.nodes.set a
            (setEntangledWith (net.nodes.getD a default) qa (b, qb))).getD b
              default)) qb (a, qa))).getD b default =
          setEntangledWith ((net.nodes.set a
            (setEntangledWith (net.nodes.getD a default) qa (b, qb))).getD b
              default) qb (a, qa) := by
        rw [getD_set_self _ _ _ _ (by simpa using hrange.2)]
      rw [hB, getD_set_ne _ _ _ _ _ hab]
      have hlen : (net.nodes.getD b default).qubits.length =
          (net.nodes.getD b default).numQubits :=
        hwf _ (getD_mem _ _ _ hrange.2)
      rw [setEntangledWith]
      simp only
      rw [getD_set_self _ _ _ _ (by rw [hlen]; exact hslots.2)]

/-- Witness for C3 on the concrete 2-node, 3-qubit, latency-0.1 network:
same-node rejection, out-of-range node and slot rejections, and a
successful call with its clock advance, registry entry and
back-references. -/
theorem C3_create_entanglement_contract_witness :
    ((DistributedQuantumNetwork.init 2 3 (1/10)).create_entanglement 0 0 0 1 =
        Except.error "Entanglement must be between different nodes") ∧
    ((DistributedQuantumNetwork.init 2 3 (1/10)).create_entanglement 0 0 2 0 =
        Except.error "Invalid node indices") ∧
    ((DistributedQuantumNetwork.init 2 3 (1/10)).create_entanglement 0 3 1 0 =
        Except.error "Invalid qubit indices") ∧
    (∀ net' t,
      (DistributedQuantumNetwork.init 2 3 (1/10)).create_entanglement 0 0 1 0 =
        Except.ok (net', t) →
      t = (1/10 : ℚ) * (3/2) ∧
      net'.globalTime = 0 + (1/10 : ℚ) * (3/2) ∧
      net'.entanglementPairs = [] ++ [((0, 0), (1, 0))] ∧
      ((net'.nodes.getD 0 default).qubits.getD 0 default).entangledWith =
        some (1, 0) ∧
      ((net'.nodes.getD 1 default).qubits.getD 0 default).entangledWith =
        some (0, 0)) := by
  refine ⟨(C3_create_entanglement_contract (DistributedQuantumNetwork.init 2 3 (1/10))
      0 0 0 1 (by decide)).1 rfl,
    (C3_create_entanglement_contract (DistributedQuantumNetwork.init 2 3 (1/10))
      0 0 2 0 (by decide)).2.1 (by decide) (by decide),
    (C3_create_entanglement_contract (DistributedQuantumNetwork.init 2 3 (1/10))
      0 3 1 0 (by decide)).2.2.1 (by decide) (by decide) (by decide),
    (C3_create_entanglement_contract (DistributedQuantumNetwork.init 2 3 (1/10))
      0 0 1 0 (by decide)).2.2.2⟩

/-! ### C9: `create_entanglement` and `execute_gate` never touch the
available-slot sets -/

lemma map_set_of_apply_getD {α β : Type} (l : List α) (i : ℕ) (v : α)
    (f : α → β) (d : α) (h : f v = f (l.getD i d)) :
    (l.set i v).map f = l.map f := by
  induction l generalizing i with
  | nil => rfl
  | cons x xs ih =>
    cases i with
    | zero => simpa [List.set] using h
    | succ n => simpa [List.set] using ih n h

deriving instance DecidableEq for Except

/-- Sample network used by concrete witnesses: 2 nodes, 3 qubits each,
latency 0.1. -/
def sampleNet : DistributedQuantumNetwork :=
  DistributedQuantumNetwork.init 2 3 (1/10)

/-- The network after a successful `create_entanglement(0,0,1,0)` on
`sampleNet`. -/
def entNetAfter : DistributedQuantumNetwork :=
  ((sampleNet.create_entanglement 0 0 1 0).toOption.map Prod.fst).getD sampleNet

/-- The node after a successful `execute_gate('H', [0], 0.01)` on a fresh
2-qubit node. -/
def gateNodeAfter : QuantumNetworkNode :=
  (((QuantumNetworkNode.init 0 2).execute_gate "H" [0] (1/100)).toOption.map
    Prod.fst).getD default

/-- C9: a successful `create_entanglement` leaves every node's
available-slot set unchanged, and a successful `execute_gate` leaves the
node's available-slot set unchanged: entanglement and gate execution never
reserve or release slots. -/
theorem C9_slot_set_frame :
    (∀ (net : DistributedQuantumNetwork) (a qa b qb : ℕ)
        (net' : DistributedQuantumNetwork) (t : ℚ),
        net.create_entanglement a qa b qb = Except.ok (net', t) →
        net'.nodes.map QuantumNetworkNode.availableQubits =
          net.nodes.map QuantumNetworkNode.availableQubits) ∧
    (∀ (node : QuantumNetworkNode) (g : String) (qs : List ℕ) (d : ℚ)
        (node' : QuantumNetworkNode) (t : ℚ),
        node.execute_gate g qs d = Except.ok (node', t) →
        node'.availableQubits = node.availableQubits) := by
  constructor
  · intro net a qa b qb net' t hok
    simp only [DistributedQuantumNetwork.create_entanglement] at hok
    split at hok
    · exact Except.noConfusion hok
    split at hok
    · exact Except.noConfusion hok
    split at hok
    · exact Except.noConfusion hok
    injection hok with h
    injection h with hnet ht
    subst hnet
    show (((net.nodes.set a _).set b _).map QuantumNetworkNode.availableQubits) = _
    rw [map_set_of_apply_getD _ b _ QuantumNetworkNode.availableQubits default
        (setEntangledWith_availableQubits _ qb (a, qa)),
      map_set_of_apply_getD _ a _ QuantumNetworkNode.availableQubits default
        (setEntangledWith_availableQubits _ qa (b, qb))]
  · intro node g qs d node' t hok
    simp only [QuantumNetworkNode.execute_gate] at hok
    split at hok
    · injection hok with h
      injection h with hnode ht
      subst hnode
      rfl
    · exact Except.noConfusion hok

/-- Witness for C9: a concrete successful entanglement and a concrete
successful gate, each leaving the available sets untouched. -/
theorem C9_slot_set_frame_witness :
    entNetAfter.nodes.map QuantumNetworkNode.availableQubits =
      sampleNet.nodes.map QuantumNetworkNode.availableQubits ∧
    gateNodeAfter.availableQubits =
      (QuantumNetworkNode.init 0 2).availableQubits :=
  ⟨C9_slot_set_frame.1 sampleNet 0 0 1 0 entNetAfter
     (sampleNet.communicationLatency * (3/2)) rfl,
   C9_slot_set_frame.2 (QuantumNetworkNode.init 0 2) "H" [0] (1/100)
     gateNodeAfter (1/100) rfl⟩

/-! ### C7: utilization over reachable node states -/

/-- Node states reachable through the repository's operations: fresh
construction, successful gate execution, qubit reset, entanglement
back-reference updates, and the scheduler's direct rewrites of the
available-slot set. -/
inductive NodeReachable : QuantumNetworkNode → Prop
  | init (nodeId numQubits : ℕ) :
      NodeReachable (QuantumNetworkNode.init nodeId numQubits)
  | gate {node node' : QuantumNetworkNode} {g : String} {qs : List ℕ} {d t : ℚ}
      (hr : NodeReachable node)
      (h : node.execute_gate g qs d = Except.ok (node', t)) :
      NodeReachable node'
  | reset {node : QuantumNetworkNode} (q : ℕ) (hr : NodeReachable node) :
      NodeReachable (node.reset_qubit q)
  | entangle {node : QuantumNetworkNode} (q : ℕ) (peer : ℕ × ℕ)
      (hr : NodeReachable node) :
      NodeReachable (setEntangledWith node q peer)
  | setAvail {node : QuantumNetworkNode} (s : Finset ℕ) (hr : NodeReachable node) :
      NodeReachable { node with availableQubits := s }

/-- The log length and the operation counter move together: `execute_gate`
is the only operation touching either, and it appends one record while
incrementing the counter. -/
lemma reachable_history_length_eq_total {node : QuantumNetworkNode}
    (h : NodeReachable node) :
    node.operationHistory.length = node.totalOperations := by
  induction h with
  | init nodeId numQubits => rfl
  | gate hr hok ih =>
    rename_i node node' g qs d t
    simp only [QuantumNetworkNode.execute_gate] at hok
    split at hok
    · injection hok with h'
      injection h' with hnode ht
      subst hnode
      simp [ih]
    · exact Except.noConfusion hok
  | reset q hr ih =>
    unfold QuantumNetworkNode.reset_qubit
    split <;> simpa using ih
  | entangle q peer hr ih => simpa [setEntangledWith] using ih
  | setAvail s hr ih => simpa using ih

/-- C7: on every reachable node state, utilization lies in `[0, 1]`; it is
`0` exactly when the operation log is empty and `1` as soon as the log is
populated, because the log length always equals the operation counter. -/
theorem C7_utilization_bounds (node : QuantumNetworkNode)
    (h : NodeReachable node) :
    (0 ≤ node.get_utilization ∧ node.get_utilization ≤ 1) ∧
    (node.operationHistory = [] → node.get_utilization = 0) ∧
    (node.operationHistory ≠ [] → node.get_utilization = 1) := by
  have hlen := reachable_history_length_eq_total h
  by_cases hempty : node.operationHistory = []
  · simp [QuantumNetworkNode.get_utilization, hempty]
  · have hpos : 0 < node.operationHistory.length :=
      List.length_pos.mpr hempty
    have hone : node.get_utilization = 1 := by
      rw [QuantumNetworkNode.get_utilization, if_neg hempty, ← hlen,
        max_eq_left (by omega)]
      exact div_self (Nat.cast_ne_zero.mpr (by omega))
    refine ⟨⟨by rw [hone]; norm_num, by rw [hone]⟩, fun he => absurd he hempty,
      fun _ => hone⟩

/-- Witness for C7: a freshly constructed node (empty log, utilization 0)
and the node after one successful gate (utilization 1). -/
theorem C7_utilization_bounds_witness :
    ((0 ≤ gateNodeAfter.get_utilization ∧ gateNodeAfter.get_utilization ≤ 1) ∧
      (gateNodeAfter.operationHistory = [] →
        gateNodeAfter.get_utilization = 0) ∧
      (gateNodeAfter.operationHistory ≠ [] →
        gateNodeAfter.get_utilization = 1)) :=
  C7_utilization_bounds gateNodeAfter
    (@NodeReachable.gate (QuantumNetworkNode.init 0 2) gateNodeAfter "H" [0]
      (1/100) (1/100) (NodeReachable.init 0 2) rfl)

/-! ### C1: `_execute_on_node` reserves, executes, releases and records -/

lemma range_toFinset (n : ℕ) : (List.range n).toFinset = Finset.range n := by
  ext x
  simp

lemma foldl_erase_eq_sdiff (l : List ℕ) (s : Finset ℕ) :
    l.foldl (fun t q => t.erase q) s = s \ l.toFinset := by
  induction l generalizing s with
  | nil => simp
  | cons a xs ih =>
    rw [List.foldl_cons, ih, List.toFinset_cons, Finset.erase_eq,
      sdiff_sdiff_left, Finset.insert_eq, Finset.sup_eq_union]

lemma foldl_insert_eq_union (l : List ℕ) (s : Finset ℕ) :
    l.foldl (fun t q => insert q t) s = s ∪ l.toFinset := by
  induction l generalizing s with
  | nil => simp
  | cons a xs ih =>
    simp only [List.foldl_cons, ih, List.toFinset_cons]
    rw [Finset.insert_union, Finset.union_insert]

/-- Success run of the gate loop: every index in range yields the exact
list of `H` records and the accumulated gate time `0.01` per gate. -/
lemma runCircuitGates_ok (l : List ℕ) :
    ∀ (node : QuantumNetworkNode), (∀ i ∈ l, i < node.numQubits) →
    runCircuitGates node l =
      Except.ok
        ({ node with
            operationHistory := node.operationHistory ++
              l.map (fun i => { gate := "H", qubits := [i], duration := 1/100,
                                nodeId := node.nodeId })
            totalOperations := node.totalOperations + l.length },
         (l.length : ℚ) * (1/100)) := by
  induction l with
  | nil => intro node _; simp [runCircuitGates]
  | cons i rest ih =>
    intro node h
    have hsingle : ∀ q ∈ [i], q < node.numQubits := by
      intro q hq
      rw [List.mem_singleton] at hq
      exact hq ▸ h i (List.mem_cons_self i rest)
    rw [runCircuitGates, execute_gate_ok node "H" [i] (1/100) hsingle]
    dsimp only
    rw [ih { node with
          operationHistory := node.operationHistory ++
            [{ gate := "H", qubits := [i], duration := 1/100,
               nodeId := node.nodeId }]
          totalOperations := node.totalOperations + 1 }
        (fun j hj => h j (List.mem_cons_of_mem _ hj))]
    dsimp only
    simp only [List.map_cons, List.length_cons]
    congr 1
    refine Prod.ext ?_ ?_
    · simp only [QuantumNetworkNode.mk.injEq, List.append_assoc,
        List.singleton_append, true_and]
      omega
    · show (1/100 : ℚ) + (rest.length : ℚ) * (1/100) = ((rest.length + 1 : ℕ) : ℚ) * (1/100)
      push_cast
      ring

/-- C1: for every work item that `execute_schedule` places on a node (so
the node's available set is the full range and covers the required qubit
count), `_execute_on_node` reserves `required_qubits` slots (indices
`0..r-1`, the first `r` of the set's native ascending order), executes one
`H` gate of duration 0.01 per reserved slot with the gates' slot indices
exactly the reserved slots, accumulates elapsed time `0.1` plus each
gate's duration, releases the slots back (the node's available set is
unchanged afterwards), and records a completion entry with the node id,
subcircuit id, elapsed time and slots used. -/
theorem C1_execute_on_node_places_work (net : DistributedQuantumNetwork)
    (nodeId : ℕ) (sc : Subcircuit)
    (hid : nodeId < net.nodes.length)
    (hfull : (net.nodes.getD nodeId default).availableQubits =
      Finset.range (net.nodes.getD nodeId default).numQubits)
    (hreq : sc.requiredQubits ≤ (net.nodes.getD nodeId default).numQubits) :
    ∃ net' : DistributedQuantumNetwork,
      QuantumScheduler.executeOnNode net nodeId sc =
        Except.ok (net',
          { nodeId := nodeId, subcircuitId := sc.partitionId,
            executionTime := 1/10 + (sc.requiredQubits : ℚ) * (1/100),
            qubitsUsed := List.range sc.requiredQubits }) ∧
      net'.nodes.getD nodeId default =
        { net.nodes.getD nodeId default with
            operationHistory :=
              (net.nodes.getD nodeId default).operationHistory ++
                (List.range sc.requiredQubits).map
                  (fun i => { gate := "H", qubits := [i], duration := 1/100,
                              nodeId := (net.nodes.getD nodeId default).nodeId })
            totalOperations :=
              (net.nodes.getD nodeId default).totalOperations +
                sc.requiredQubits } := by
  have htake : ((net.nodes.getD nodeId default).availableQubits.sort
      (· ≤ ·)).take sc.requiredQubits = List.range sc.requiredQubits := by
    rw [hfull, Finset.sort_range, List.take_range, min_eq_left hreq]
  have hgates : ∀ i ∈ List.range sc.requiredQubits,
      i < ({ net.nodes.getD nodeId default with
              availableQubits :=
                (List.range sc.requiredQubits).foldl (fun t q => t.erase q)
                  (net.nodes.getD nodeId default).availableQubits } :
            QuantumNetworkNode).numQubits := by
    intro i hi
    have := List.mem_range.mp hi
    show i < (net.nodes.getD nodeId default).numQubits
    omega
  rw [QuantumScheduler.executeOnNode]
  simp only [htake]
  rw [runCircuitGates_ok (List.range sc.requiredQubits) _ hgates]
  dsimp only
  simp only [List.length_range]
  refine ⟨_, rfl, ?_⟩
  rw [getD_set_self _ _ _ _ hid]
  congr 1
  rw [foldl_insert_eq_union, foldl_erase_eq_sdiff, hfull, range_toFinset,
    Finset.sdiff_union_of_subset (Finset.range_subset.mpr hreq)]

/-- Witness for C1: placing a 2-qubit subcircuit (partition id 7) on node
0 of the fresh 2×3 network. -/
theorem C1_execute_on_node_places_work_witness :
    ∃ net' : DistributedQuantumNetwork,
      QuantumScheduler.executeOnNode sampleNet 0 ⟨2, 7⟩ =
        Except.ok (net',
          { nodeId := 0, subcircuitId := 7,
            executionTime := 1/10 + ((2 : ℕ) : ℚ) * (1/100),
            qubitsUsed := List.range 2 }) ∧
      net'.nodes.getD 0 default =
        { sampleNet.nodes.getD 0 default with
            operationHistory :=
              (sampleNet.nodes.getD 0 default).operationHistory ++
                (List.range 2).map
                  (fun i => { gate := "H", qubits := [i], duration := 1/100,
                              nodeId := (sampleNet.nodes.getD 0 default).nodeId })
            totalOperations :=
              (sampleNet.nodes.getD 0 default).totalOperations + 2 } :=
  C1_execute_on_node_places_work sampleNet 0 ⟨2, 7⟩ (by decide) (by decide)
    (by decide)

/-! ### C10 and C5: `execute_schedule` total behaviour -/

/-- Success shape of `_execute_on_node` whenever the placement condition
of `_find_available_node` holds: the gate loop cannot hit the invalid-slot
branch because every gate index is below `required_qubits ≤ |available| ≤
num_qubits`. -/
lemma executeOnNode_ok (net : DistributedQuantumNetwork) (nid : ℕ)
    (sc : Subcircuit)
    (hsub : (net.nodes.getD nid default).availableQubits ⊆
      Finset.range (net.nodes.getD nid default).numQubits)
    (hcard : sc.requiredQubits ≤
      (net.nodes.getD nid default).availableQubits.card) :
    ∃ (node' : QuantumNetworkNode) (res : ExecResult),
      QuantumScheduler.executeOnNode net nid sc =
        Except.ok ({ net with nodes := net.nodes.set nid node' }, res) ∧
      node'.nodeId = (net.nodes.getD nid default).nodeId ∧
      node'.numQubits = (net.nodes.getD nid default).numQubits ∧
      node'.availableQubits = (net.nodes.getD nid default).availableQubits := by
  have hN : (net.nodes.getD nid default).availableQubits.card ≤
      (net.nodes.getD nid default).numQubits := by
    have := Finset.card_le_card hsub
    simpa [Finset.card_range] using this
  have hgates : ∀ i ∈ List.range sc.requiredQubits,
      i < ({ net.nodes.getD nid default with
              availableQubits :=
                (((net.nodes.getD nid default).availableQubits.sort
                    (· ≤ ·)).take sc.requiredQubits).foldl
                  (fun t q => t.erase q)
                  (net.nodes.getD nid default).availableQubits } :
            QuantumNetworkNode).numQubits := by
    intro i hi
    have := List.mem_range.mp hi
    show i < (net.nodes.getD nid default).numQubits
    omega
  have hused : ∀ q ∈ ((net.nodes.getD nid default).availableQubits.sort
      (· ≤ ·)).take sc.requiredQubits,
      q ∈ (net.nodes.getD nid default).availableQubits :=
    fun q hq => (Finset.mem_sort _).mp (List.mem_of_mem_take hq)
  rw [QuantumScheduler.executeOnNode]
  rw [runCircuitGates_ok (List.range sc.requiredQubits) _ hgates]
  dsimp only
  refine ⟨_, _, rfl, rfl, rfl, ?_⟩
  show (((net.nodes.getD nid default).availableQubits.sort
      (· ≤ ·)).take sc.requiredQubits).foldl (fun s q => insert q s)
      ((((net.nodes.getD nid default).availableQubits.sort
        (· ≤ ·)).take sc.requiredQubits).foldl (fun t q => t.erase q)
        (net.nodes.getD nid default).availableQubits) =
    (net.nodes.getD nid default).availableQubits
  rw [foldl_insert_eq_union, foldl_erase_eq_sdiff,
    Finset.sdiff_union_of_subset
      (fun x hx => hused x (List.mem_toFinset.mp hx))]

/-- What a successful `_find_available_node` lookup guarantees, given that
node ids equal list positions (as network construction ensures): the id is
in range and the node it denotes has enough available slots. -/
lemma findAvailableNode_spec (net : DistributedQuantumNetwork)
    (required nid : ℕ)
    (hids : ∀ (i : ℕ) (h : i < net.nodes.length),
      (net.nodes.get ⟨i, h⟩).nodeId = i)
    (h : QuantumScheduler.findAvailableNode net required = some nid) :
    nid < net.nodes.length ∧
    required ≤ (net.nodes.getD nid default).availableQubits.card := by
  rw [QuantumScheduler.findAvailableNode] at h
  obtain ⟨n, hfind, hnid⟩ := Option.map_eq_some'.mp h
  have hpred : required ≤ n.availableQubits.card := by
    have := List.find?_some hfind
    simpa using this
  obtain ⟨i, hget⟩ := List.mem_iff_get.mp (List.mem_of_find?_eq_some hfind)
  have hid' : nid = i.1 := by
    rw [← hnid, ← hget]
    exact hids i.1 i.2
  subst hid'
  refine ⟨i.2, ?_⟩
  rw [List.getD_eq_getElem _ _ i.2]
  have hge : net.nodes[i.1] = n := by
    rw [← hget]
    simp [List.get_eq_getElem]
  rw [hge]
  exact hpred

/-- Invariant carried through the scheduler drain: node ids equal list
positions, and every available set is a subset of the node's slot range. -/
def NetInv (net : DistributedQuantumNetwork) : Prop :=
  (∀ (i : ℕ) (h : i < net.nodes.length), (net.nodes.get ⟨i, h⟩).nodeId = i) ∧
  (∀ n ∈ net.nodes, n.availableQubits ⊆ Finset.range n.numQubits)

lemma NetInv_set (net : DistributedQuantumNetwork) (nid : ℕ)
    (node' : QuantumNetworkNode) (hinv : NetInv net)
    (hnid : node'.nodeId = (net.nodes.getD nid default).nodeId)
    (hnum : node'.numQubits = (net.nodes.getD nid default).numQubits)
    (havail : node'.availableQubits =
      (net.nodes.getD nid default).availableQubits)
    (hid : nid < net.nodes.length) :
    NetInv { net with nodes := net.nodes.set nid node' } := by
  constructor
  · intro i h
    have hlen : i < net.nodes.length := by simpa using h
    simp only [List.get_eq_getElem, List.getElem_set]
    by_cases heq : nid = i
    · rw [if_pos heq, hnid, List.getD_eq_getElem _ _ hid, ← heq]
      have := hinv.1 nid hid
      simpa [List.get_eq_getElem] using this
    · rw [if_neg heq]
      have := hinv.1 i hlen
      simpa [List.get_eq_getElem] using this
  · intro n hn
    rcases List.mem_or_eq_of_mem_set hn with hmem | rfl
    · exact hinv.2 n hmem
    · rw [havail, hnum]
      exact hinv.2 _ (getD_mem _ _ _ hid)

/-- The drain loop of `execute_schedule` never raises: every placement
found by `_find_available_node` executes successfully, and the invariant
survives each step. -/
lemma drainLoop_ok (l : List QueueEntry) :
    ∀ net : DistributedQuantumNetwork, NetInv net →
    ∃ net' rq rs, drainLoop net l = Except.ok (net', rq, rs) ∧ NetInv net' := by
  induction l with
  | nil => exact fun net hinv => ⟨net, [], [], rfl, hinv⟩
  | cons e rest ih =>
    intro net hinv
    cases hfind : QuantumScheduler.findAvailableNode net
        e.subcircuit.requiredQubits with
    | none =>
      obtain ⟨net', rq, rs, hrec, hinv'⟩ := ih net hinv
      refine ⟨net', { e with priority := e.priority + 1 } :: rq, rs, ?_, hinv'⟩
      rw [drainLoop, hfind, hrec]
    | some nid =>
      obtain ⟨hid, hcard⟩ := findAvailableNode_spec net _ nid hinv.1 hfind
      obtain ⟨node', res, hexec, hnid, hnum, havail⟩ :=
        executeOnNode_ok net nid e.subcircuit
          (hinv.2 _ (getD_mem _ _ _ hid)) hcard
      have hinv' := NetInv_set net nid node' hinv hnid hnum havail hid
      obtain ⟨net', rq, rs, hrec, hinv''⟩ := ih _ hinv'
      refine ⟨net', rq, res :: rs, ?_, hinv''⟩
      rw [drainLoop, hfind]
      dsimp only
      rw [hexec]
      dsimp only
      rw [hrec]

/-- C10: `execute_schedule` never triggers the invalid-slot branch of
`execute_gate`: for every batch of items with positive required qubit
counts, whenever `_find_available_node` returns a node its available set
covers the requirement, every gate index the scheduler passes is below the
node's qubit count, and the whole drain returns without an exception. -/
theorem C10_execute_schedule_no_exception (s : QuantumScheduler)
    (hids : ∀ (i : ℕ) (h : i < s.network.nodes.length),
      (s.network.nodes.get ⟨i, h⟩).nodeId = i)
    (hsub : ∀ n ∈ s.network.nodes,
      n.availableQubits ⊆ Finset.range n.numQubits)
    (hpos : ∀ e ∈ s.scheduleQueue, 0 < e.subcircuit.requiredQubits) :
    ∃ r, s.execute_schedule = Except.ok r := by
  obtain ⟨net', rq, rs, hok, -⟩ :=
    drainLoop_ok (heapOrder s.scheduleQueue) s.network ⟨hids, hsub⟩
  rw [QuantumScheduler.execute_schedule, hok]
  exact ⟨_, rfl⟩

/-- Witness for C10: a queue of one 2-qubit and one 3-qubit item on the
fresh 2×3 network drains without an exception. -/
theorem C10_execute_schedule_no_exception_witness :
    ∃ r, (QuantumScheduler.mk sampleNet
        [⟨1, 0, 0, ⟨2, 0⟩⟩, ⟨1, 0, 1, ⟨3, 1⟩⟩] []).execute_schedule =
      Except.ok r :=
  C10_execute_schedule_no_exception
    (QuantumScheduler.mk sampleNet [⟨1, 0, 0, ⟨2, 0⟩⟩, ⟨1, 0, 1, ⟨3, 1⟩⟩] [])
    (by decide) (by decide) (by decide)

/-- When nothing fits anywhere, the drain executes nothing and bumps every
entry's priority by one. -/
lemma drainLoop_all_unplaceable (l : List QueueEntry)
    (net : DistributedQuantumNetwork)
    (h : ∀ e ∈ l, QuantumScheduler.findAvailableNode net
      e.subcircuit.requiredQubits = none) :
    drainLoop net l =
      Except.ok (net,
        l.map (fun e => { e with priority := e.priority + 1 }), []) := by
  induction l with
  | nil => rfl
  | cons e rest ih =>
    rw [drainLoop, h e (List.mem_cons_self e rest),
      ih (fun x hx => h x (List.mem_cons_of_mem _ hx))]
    rfl

/-- C5: when 3 subcircuits are submitted, each requiring more qubits than
any single node possesses, `execute_schedule` raises no exception, reports
circuits-executed count 0 and schedule-efficiency 0, and re-inserts all 3
items into the pending structure with their priority incremented by 1. -/
theorem C5_unplaceable_batch_requeues (s : QuantumScheduler)
    (hlen : s.scheduleQueue.length = 3)
    (hsub : ∀ n ∈ s.network.nodes,
      n.availableQubits ⊆ Finset.range n.numQubits)
    (hbig : ∀ e ∈ s.scheduleQueue, ∀ n ∈ s.network.nodes,
      n.numQubits < e.subcircuit.requiredQubits) :
    ∃ s' a, s.execute_schedule = Except.ok (s', a) ∧
      a.circuitsExecuted = 0 ∧
      a.scheduleEfficiency = 0 ∧
      s'.scheduleQueue.Perm
        (s.scheduleQueue.map (fun e => { e with priority := e.priority + 1 })) := by
  have hfind : ∀ e ∈ heapOrder s.scheduleQueue,
      QuantumScheduler.findAvailableNode s.network
        e.subcircuit.requiredQubits = none := by
    intro e he
    have he' : e ∈ s.scheduleQueue :=
      (List.mergeSort_perm s.scheduleQueue QueueEntry.keyLe).mem_iff.mp he
    rw [QuantumScheduler.findAvailableNode, Option.map_eq_none',
      List.find?_eq_none]
    intro n hn
    have h1 : n.availableQubits.card ≤ n.numQubits := by
      have := Finset.card_le_card (hsub n hn)
      simpa [Finset.card_range] using this
    have h2 := hbig e he' n hn
    simp only [decide_eq_true_eq]
    omega
  rw [QuantumScheduler.execute_schedule,
    drainLoop_all_unplaceable _ _ hfind]
  refine ⟨_, _, rfl, rfl, ?_, ?_⟩
  · show ((([] : List ExecResult).length : ℚ) / _ : ℚ) = 0
    simp
  · exact ((List.mergeSort_perm s.scheduleQueue QueueEntry.keyLe).map _)

/-- Witness for C5: three 5-qubit requests against the 2×3 network all
come back at priority 2 with nothing executed. -/
theorem C5_unplaceable_batch_requeues_witness :
    ∃ s' a, (QuantumScheduler.mk sampleNet
        [⟨1, 0, 0, ⟨5, 0⟩⟩, ⟨1, 0, 1, ⟨5, 1⟩⟩, ⟨1, 0, 2, ⟨5, 2⟩⟩] []).execute_schedule =
      Except.ok (s', a) ∧
      a.circuitsExecuted = 0 ∧
      a.scheduleEfficiency = 0 ∧
      s'.scheduleQueue.Perm
        ([⟨1, 0, 0, ⟨5, 0⟩⟩, ⟨1, 0, 1, ⟨5, 1⟩⟩,
          (⟨1, 0, 2, ⟨5, 2⟩⟩ : QueueEntry)].map
          (fun e => { e with priority := e.priority + 1 })) :=
  C5_unplaceable_batch_requeues
    (QuantumScheduler.mk sampleNet
      [⟨1, 0, 0, ⟨5, 0⟩⟩, ⟨1, 0, 1, ⟨5, 1⟩⟩, ⟨1, 0, 2, ⟨5, 2⟩⟩] [])
    (by decide) (by decide) (by decide)

/-! ### Teleportation: success shape -/

/-- Success shape of `create_entanglement`, exposing only the facts the
protocol layer needs. -/
lemma create_entanglement_ok_props (net : DistributedQuantumNetwork)
    (a qa b qb : ℕ) (hab : a ≠ b)
    (ha : a < net.nodes.length) (hb : b < net.nodes.length)
    (hqa : qa < (net.nodes.getD a default).numQubits)
    (hqb : qb < (net.nodes.getD b default).numQubits) :
    ∃ netE : DistributedQuantumNetwork,
      net.create_entanglement a qa b qb =
        Except.ok (netE, net.communicationLatency * (3/2)) ∧
      netE.globalTime = net.globalTime + net.communicationLatency * (3/2) ∧
      netE.communicationLatency = net.communicationLatency ∧
      netE.nodes.length = net.nodes.length ∧
      (∀ i, (netE.nodes.getD i default).numQubits =
        (net.nodes.getD i default).numQubits) := by
  rw [DistributedQuantumNetwork.create_entanglement, if_neg hab,
    if_neg (not_not_intro ⟨ha, hb⟩), if_neg (not_not_intro ⟨hqa, hqb⟩)]
  refine ⟨_, rfl, rfl, rfl, by simp, ?_⟩
  intro i
  show (((net.nodes.set a _).set b _).getD i default).numQubits = _
  by_cases hib : i = b
  · subst hib
    rw [getD_set_self _ _ _ _ (by simpa using hb),
      setEntangledWith_numQubits, getD_set_ne _ _ _ _ _ hab]
  · rw [getD_set_ne _ _ _ _ _ (fun hbi => hib hbi.symm)]
    by_cases hia : i = a
    · subst hia
      rw [getD_set_self _ _ _ _ ha, setEntangledWith_numQubits]
    · rw [getD_set_ne _ _ _ _ _ (fun hai => hia hai.symm)]

/-- Success shape of the network-level single-qubit gate call. -/
lemma networkNodeExecuteGate_ok (net : DistributedQuantumNetwork)
    (nid : ℕ) (g : String) (q : ℕ) (d : ℚ)
    (hq : q < (net.nodes.getD nid default).numQubits) :
    networkNodeExecuteGate net nid g [q] d =
      Except.ok
        ({ net with
            nodes := net.nodes.set nid
              ({ net.nodes.getD nid default with
                  operationHistory :=
                    (net.nodes.getD nid default).operationHistory ++
                      [{ gate := g, qubits := [q], duration := d,
                         nodeId := (net.nodes.getD nid default).nodeId }]
                  totalOperations :=
                    (net.nodes.getD nid default).totalOperations + 1 }) }, d) := by
  rw [networkNodeExecuteGate,
    execute_gate_ok _ g [q] d
      (by intro x hx
          rw [List.mem_singleton] at hx
          exact hx ▸ hq)]

/-- One conditional correction-gate stage of `teleport_qubit`: it always
succeeds (the target slot was already validated), never moves the logical
clock, and preserves the latency, registry and node geometry. -/
lemma correction_gate_step (net : DistributedQuantumNetwork) (tn tq : ℕ)
    (g : String) (m : ℕ)
    (htq : tq < (net.nodes.getD tn default).numQubits)
    (ht : tn < net.nodes.length) :
    ∃ (net' : DistributedQuantumNetwork) (d : ℚ),
      (if m = 1 then networkNodeExecuteGate net tn g [tq] (1/100)
       else Except.ok (net, 0)) = Except.ok (net', d) ∧
      net'.globalTime = net.globalTime ∧
      net'.communicationLatency = net.communicationLatency ∧
      net'.entanglementPairs = net.entanglementPairs ∧
      net'.nodes.length = net.nodes.length ∧
      (net'.nodes.getD tn default).numQubits =
        (net.nodes.getD tn default).numQubits := by
  by_cases hm : m = 1
  · rw [if_pos hm, networkNodeExecuteGate_ok net tn g tq (1/100) htq]
    refine ⟨_, _, rfl, rfl, rfl, rfl, ?_, ?_⟩
    · simp
    · rw [getD_set_self _ _ _ _ ht]
  · rw [if_neg hm]
    exact ⟨net, 0, rfl, rfl, rfl, rfl, rfl, rfl⟩

/-- Success shape of `teleport_qubit` on a valid source/target pair: the
returned elapsed time is `latency*1.5 + 0.05 + latency + 0.02`
(correction-gate durations never reach the clock), the fidelity is the
clamped noisy base fidelity, and the metrics accumulator gains exactly one
time and one fidelity entry with the error log untouched. -/
lemma teleport_qubit_ok (p : QuantumProtocols) (sn sq tn tq : ℕ)
    (draws : TeleportDraws) (hab : sn ≠ tn)
    (hs : sn < p.network.nodes.length) (ht : tn < p.network.nodes.length)
    (hsq : sq < (p.network.nodes.getD sn default).numQubits)
    (htq : tq < (p.network.nodes.getD tn default).numQubits) :
    ∃ (p' : QuantumProtocols) (t : ℚ),
      p.teleport_qubit sn sq tn tq draws =
        Except.ok (p', t,
          max (94/100) (min (98/100) (96/100 + draws.noise))) ∧
      t = p.network.communicationLatency * (5/2) + 7/100 ∧
      p'.protocolMetrics.teleportationTimes =
        p.protocolMetrics.teleportationTimes ++ [t] ∧
      p'.protocolMetrics.fidelities =
        p.protocolMetrics.fidelities ++
          [max (94/100) (min (98/100) (96/100 + draws.noise))] ∧
      p'.protocolMetrics.protocolErrors =
        p.protocolMetrics.protocolErrors := by
  obtain ⟨netE, hokE, hGE, hLE, hlenE, hnumE⟩ :=
    create_entanglement_ok_props p.network sn sq tn tq hab hs ht hsq htq
  rw [QuantumProtocols.teleport_qubit, hokE]
  dsimp only
  obtain ⟨net4, d4, hstep4, hG4, hL4, hE4, hlen4, hnum4⟩ :=
    correction_gate_step
      { netE with globalTime := netE.globalTime + 1/20 + netE.communicationLatency }
      tn tq "X" draws.measurement1
      (by show tq < (netE.nodes.getD tn default).numQubits
          rw [hnumE tn]; exact htq)
      (by show tn < netE.nodes.length
          rw [hlenE]; exact ht)
  rw [hstep4]
  dsimp only
  obtain ⟨net5, d5, hstep5, hG5, hL5, hE5, hlen5, hnum5⟩ :=
    correction_gate_step net4 tn tq "Z" draws.measurement0
      (by rw [hnum4]
          show tq < (netE.nodes.getD tn default).numQubits
          rw [hnumE tn]; exact htq)
      (by rw [hlen4]
          show tn < netE.nodes.length
          rw [hlenE]; exact ht)
  rw [hstep5]
  dsimp only
  refine ⟨_, _, rfl, ?_, rfl, rfl, rfl⟩
  rw [hG5, hG4]
  dsimp only
  rw [hGE, hLE]
  ring

/-! ### C8: teleportation bounds and determinism -/

/-- C8: on every valid source/target pair, `teleport_qubit` returns a
positive elapsed time and a fidelity inside the clamp band `[0.94, 0.98]`,
and it is a deterministic function of the engine state and the injected
random draws: identical states and draws give identical results. -/
theorem C8_teleport_bounds_and_determinism (p : QuantumProtocols)
    (sn sq tn tq : ℕ) (draws : TeleportDraws) (hab : sn ≠ tn)
    (hs : sn < p.network.nodes.length) (ht : tn < p.network.nodes.length)
    (hsq : sq < (p.network.nodes.getD sn default).numQubits)
    (htq : tq < (p.network.nodes.getD tn default).numQubits)
    (hlat : 0 ≤ p.network.communicationLatency) :
    (∃ (p' : QuantumProtocols) (t f : ℚ),
      p.teleport_qubit sn sq tn tq draws = Except.ok (p', t, f) ∧
      0 < t ∧ 94/100 ≤ f ∧ f ≤ 98/100) ∧
    (∀ q : QuantumProtocols, q = p →
      q.teleport_qubit sn sq tn tq draws =
        p.teleport_qubit sn sq tn tq draws) := by
  obtain ⟨p', t, hok, htv, -, -, -⟩ :=
    teleport_qubit_ok p sn sq tn tq draws hab hs ht hsq htq
  refine ⟨⟨p', t, _, hok, ?_, le_max_left _ _,
    max_le (by norm_num) (min_le_left _ _)⟩, fun q hq => hq ▸ rfl⟩
  rw [htv]
  nlinarith [hlat]

/-- Witness for C8: a concrete teleport on the 2×3 latency-0.1 network
with measurement bits (1,0) and noise 0.003. -/
theorem C8_teleport_bounds_and_determinism_witness :
    (∃ (p' : QuantumProtocols) (t f : ℚ),
      (QuantumProtocols.init sampleNet).teleport_qubit 0 0 1 0
          ⟨1, 0, 3/1000⟩ = Except.ok (p', t, f) ∧
      0 < t ∧ 94/100 ≤ f ∧ f ≤ 98/100) ∧
    (∀ q : QuantumProtocols, q = QuantumProtocols.init sampleNet →
      q.teleport_qubit 0 0 1 0 ⟨1, 0, 3/1000⟩ =
        (QuantumProtocols.init sampleNet).teleport_qubit 0 0 1 0
          ⟨1, 0, 3/1000⟩) :=
  C8_teleport_bounds_and_determinism (QuantumProtocols.init sampleNet)
    0 0 1 0 ⟨1, 0, 3/1000⟩ (by decide) (by decide) (by decide) (by decide)
    (by decide)
    (by norm_num [QuantumProtocols.init, sampleNet, DistributedQuantumNetwork.init])

/-! ### C2: the reference teleport scenario -/

/-- C2 counterexample: with both measurement bits set, both correction
gates run (duration 0.01 each), so the claim predicts elapsed time 0.32 +
0.02; but the code returns exactly 0.32 = 8/25 — correction-gate durations
are logged on the node and never added to the logical clock. -/
theorem C2_teleport_scenario_counterexample :
    (∃ (p' : QuantumProtocols) (f : ℚ),
      (QuantumProtocols.init sampleNet).teleport_qubit 0 0 1 0 ⟨1, 1, 0⟩ =
        Except.ok (p', 8/25, f)) ∧
    (8/25 : ℚ) ≠ 8/25 + (1/100 + 1/100) := by
  obtain ⟨p', t, hok, htv, -, -, -⟩ :=
    teleport_qubit_ok (QuantumProtocols.init sampleNet) 0 0 1 0 ⟨1, 1, 0⟩
      (by decide) (by decide) (by decide) (by decide) (by decide)
  have ht8 : t = 8/25 := by
    rw [htv]
    norm_num [QuantumProtocols.init, sampleNet, DistributedQuantumNetwork.init]
  rw [ht8] at hok
  exact ⟨⟨p', _, hok⟩, by norm_num⟩

/-- C2 (amended): on the 2-node, 3-qubit, latency-0.1 network, a single
`teleport_qubit(0,0,1,0)` returns elapsed time exactly
`0.1*1.5 + 0.05 + 0.1 + 0.02 = 0.32` for every pair of measurement bits —
the correction-gate durations never reach the logical clock — and a
fidelity in `[0.94, 0.98]`. -/
theorem C2_teleport_scenario_time_and_fidelity (m0 m1 : ℕ) (noise : ℚ) :
    ∃ (p' : QuantumProtocols) (f : ℚ),
      (QuantumProtocols.init sampleNet).teleport_qubit 0 0 1 0
          ⟨m0, m1, noise⟩ = Except.ok (p', 8/25, f) ∧
      94/100 ≤ f ∧ f ≤ 98/100 := by
  obtain ⟨p', t, hok, htv, -, -, -⟩ :=
    teleport_qubit_ok (QuantumProtocols.init sampleNet) 0 0 1 0
      ⟨m0, m1, noise⟩ (by decide) (by decide) (by decide) (by decide)
      (by decide)
  have ht8 : t = 8/25 := by
    rw [htv]
    norm_num [QuantumProtocols.init, sampleNet, DistributedQuantumNetwork.init]
  rw [ht8] at hok
  exact ⟨p', _, hok, le_max_left _ _, max_le (by norm_num) (min_le_left _ _)⟩

/-! ### C6: `get_protocol_metrics` on zero and one operation -/

/-- C6: `get_protocol_metrics` returns the empty result when no operation
has been recorded, and after exactly one successful teleportation it
reports operation count 1 and min fidelity = max fidelity = the fidelity
that teleportation returned. -/
theorem C6_metrics_empty_then_single (net : DistributedQuantumNetwork)
    (sn sq tn tq : ℕ) (draws : TeleportDraws) (hab : sn ≠ tn)
    (hs : sn < net.nodes.length) (ht : tn < net.nodes.length)
    (hsq : sq < (net.nodes.getD sn default).numQubits)
    (htq : tq < (net.nodes.getD tn default).numQubits) :
    (QuantumProtocols.init net).get_protocol_metrics = none ∧
    ∃ (p' : QuantumProtocols) (t f : ℚ) (s : MetricsSummary),
      (QuantumProtocols.init net).teleport_qubit sn sq tn tq draws =
        Except.ok (p', t, f) ∧
      p'.get_protocol_metrics = some s ∧
      s.totalOperations = 1 ∧ s.minFidelity = f ∧ s.maxFidelity = f := by
  refine ⟨rfl, ?_⟩
  obtain ⟨p', t, hok, -, htimes, hfids, -⟩ :=
    teleport_qubit_ok (QuantumProtocols.init net) sn sq tn tq draws
      hab hs ht hsq htq
  have htimes' : p'.protocolMetrics.teleportationTimes = [t] := by
    rw [htimes]
    rfl
  have hfids' : p'.protocolMetrics.fidelities =
      [max (94/100) (min (98/100) (96/100 + draws.noise))] := by
    rw [hfids]
    rfl
  have hsome : p'.get_protocol_metrics = some
      { avgTeleportationTime := meanQ [t]
        stdTeleportationTimeSq := varianceQ [t]
        avgFidelity :=
          meanQ [max (94/100) (min (98/100) (96/100 + draws.noise))]
        minFidelity := max (94/100) (min (98/100) (96/100 + draws.noise))
        maxFidelity := max (94/100) (min (98/100) (96/100 + draws.noise))
        totalOperations := 1
        totalEntanglements :=
          if p'.protocolMetrics.entanglementConsumption = [] then 0
          else listMaxNat p'.protocolMetrics.entanglementConsumption
        errorCount := p'.protocolMetrics.protocolErrors.length } := by
    rw [QuantumProtocols.get_protocol_metrics, htimes', hfids',
      if_neg (by simp)]
    rfl
  exact ⟨p', t, _, _, hok, hsome, rfl, rfl, rfl⟩

/-- Witness for C6: fresh protocol engine on the 2×3 network, zero
operations, then one concrete teleport. -/
theorem C6_metrics_empty_then_single_witness :
    (QuantumProtocols.init sampleNet).get_protocol_metrics = none ∧
    ∃ (p' : QuantumProtocols) (t f : ℚ) (s : MetricsSummary),
      (QuantumProtocols.init sampleNet).teleport_qubit 0 0 1 0
          ⟨0, 1, 1/100⟩ = Except.ok (p', t, f) ∧
      p'.get_protocol_metrics = some s ∧
      s.totalOperations = 1 ∧ s.minFidelity = f ∧ s.maxFidelity = f :=
  C6_metrics_empty_then_single sampleNet 0 0 1 0 ⟨0, 1, 1/100⟩ (by decide)
    (by decide) (by decide) (by decide) (by decide)

end DQC
